import Mathlib

/-!
Verification of the multi-source retrieval and content-aggregation engine of
the mcp-websearch-server repository, against its natural-language spec.

The Go source is shallowly embedded:

* Go strings are modelled as Lean strings; byte indexing in the Go code is
  mapped to character indexing (the two agree on the ASCII data of every
  concrete input below).  Explicit helper functions mirror the corresponding
  functions of the Go strings package.
* The provider registry (a Go map with unique keys, used only through keyed
  lookup, never iterated) is modelled as an association list queried with
  List.lookup.
* A search engine and the page renderer are the external capabilities of the
  spec; they are modelled as record fields holding result-returning functions
  (Except models a Go (value, error) pair).
* Concurrency: every fan-out in the source is a launch-then-join barrier.
  The bounded enricher and the sub-page crawler write disjoint indices, so
  their final state is deterministic and is modelled as a map over the list.
  DeepSearch instead appends whole batches under a mutex as tasks complete,
  so its final state depends on the completion schedule; the schedule is an
  explicit parameter (a permutation of the engine indices).
-/

/-! ### Go string helpers (strings package fragment used by the source) -/

/-- Go bytes of a string, as characters (exact for ASCII data). -/
def strChars (s : String) : List Char :=
  s.toList

/-- Go len(s). -/
def strLen (s : String) : Nat :=
  (strChars s).length

/-- List-level prefix test, mirroring the byte comparison of the Go
strings package. -/
def isPrefixOfChars : List Char → List Char → Bool
  | [], _ => true
  | _ :: _, [] => false
  | a :: as, b :: bs => a == b && isPrefixOfChars as bs

/-- Go strings.Contains(l, pat) on character lists. -/
def containsChars (l pat : List Char) : Bool :=
  isPrefixOfChars pat l ||
    match l with
    | [] => false
    | _ :: rest => containsChars rest pat

/-- Go strings.HasPrefix. -/
def goHasPrefix (s pat : String) : Bool :=
  isPrefixOfChars (strChars pat) (strChars s)

/-- Go strings.HasSuffix. -/
def goHasSuffix (s pat : String) : Bool :=
  isPrefixOfChars (strChars pat).reverse (strChars s).reverse

/-- Go strings.Contains. -/
def goContains (s pat : String) : Bool :=
  containsChars (strChars s) (strChars pat)

/-- Go s[:n] (prefix cut). -/
def goTake (s : String) (n : Nat) : String :=
  ((strChars s).take n).asString

/-- Go strings.ToLower (ASCII case fold). -/
def goToLower (s : String) : String :=
  ((strChars s).map Char.toLower).asString

/-- Go strings.Index(l, pat): index of the first occurrence, -1 if absent. -/
def firstIndexChars (l pat : List Char) : Int :=
  match (((List.range (l.length + 1)).filter
      (fun i => isPrefixOfChars pat (l.drop i))).head?) with
  | some i => (i : Int)
  | none => -1

/-- Go strings.LastIndex(l, pat): index of the last occurrence, -1 if
absent. -/
def lastIndexChars (l pat : List Char) : Int :=
  match (((List.range (l.length + 1)).filter
      (fun i => isPrefixOfChars pat (l.drop i))).getLast?) with
  | some i => (i : Int)
  | none => -1

/-- Go strings.Index on strings. -/
def goIndex (s pat : String) : Int :=
  firstIndexChars (strChars s) (strChars pat)

/-! ### Data model (search/interface.go) -/

/-- search.SearchResult.  The Go zero values of Content and ExtractedAt mean
"absent" (the spec data model says content and extractedAt are
string-or-absent and timestamp-or-absent), so both are options here; the
enricher is the only writer of the two fields. -/
structure SearchResult where
  title : String
  url : String
  snippet : String
  content : Option String
  engine : String
  extractedAt : Option Nat
deriving DecidableEq

/-- search.SearchOptions (Timeout is carried but irrelevant to the pure
model). -/
structure SearchOptions where
  maxResults : Nat
  extractContent : Bool
  engines : List String
  timeout : Nat
deriving DecidableEq

/-- search.SearchEngine capability: a name and a result-returning call
(query, maxResults). -/
structure Engine where
  name : String
  search : String → Nat → Except String (List SearchResult)

/-- The name-keyed provider registry (Go map, unique keys, lookup only). -/
abbrev Registry := List (String × Engine)

/-- Go h.engines[name]. -/
def lookupEngine (reg : Registry) (n : String) : Option Engine :=
  List.lookup n reg

/-- The fixed hardcoded priority list of the hybrid searcher; the same
literal appears in selectEngine, fallbackSearch and getEngines of the
source. -/
def hybridPriority : List String :=
  ["duckduckgo", "bing", "brave"]

/-! ### Provider selection (HybridMultiEngineSearcher.selectEngine /
fallbackSearch / getEngines) -/

/-- The first registered engine while walking a name list in order (the
loop body shared by both loops of selectEngine). -/
def findEngineIn (reg : Registry) : List String → Option Engine
  | [] => none
  | n :: rest =>
    match lookupEngine reg n with
    | some e => some e
    | none => findEngineIn reg rest

/-- HybridMultiEngineSearcher.selectEngine: walk the preferred names, then
the fixed priority list.  (The Go guard if len(preferred) > 0 only skips an
empty loop and has no semantic effect.) -/
def selectEngine (reg : Registry) (preferred : List String) : Option Engine :=
  match findEngineIn reg preferred with
  | some e => some e
  | none => findEngineIn reg hybridPriority

/-- The loop of HybridMultiEngineSearcher.fallbackSearch: walk the names,
skip the just-failed engine, return the first successful search. -/
def fallbackLoop (reg : Registry) (query : String) (maxResults : Nat)
    (failedEngine : String) : List String → Except String (List SearchResult)
  | [] => .error "all fallback engines failed"
  | n :: rest =>
    if n == failedEngine then
      fallbackLoop reg query maxResults failedEngine rest
    else
      match lookupEngine reg n with
      | some e =>
        match e.search query maxResults with
        | .ok results => .ok results
        | .error _ => fallbackLoop reg query maxResults failedEngine rest
      | none => fallbackLoop reg query maxResults failedEngine rest

/-- HybridMultiEngineSearcher.fallbackSearch. -/
def fallbackSearch (reg : Registry) (query : String) (maxResults : Nat)
    (failedEngine : String) : Except String (List SearchResult) :=
  fallbackLoop reg query maxResults failedEngine hybridPriority

/-- The loop of HybridMultiEngineSearcher.getEngines. -/
def getEnginesLoop (reg : Registry) : List String → List Engine
  | [] => []
  | n :: rest =>
    match lookupEngine reg n with
    | some e => e :: getEnginesLoop reg rest
    | none => getEnginesLoop reg rest

/-- HybridMultiEngineSearcher.getEngines: empty input falls back to the
fixed default name list, then each name is looked up in order. -/
def getEngines (reg : Registry) (names : List String) : List Engine :=
  getEnginesLoop reg (if names.isEmpty then hybridPriority else names)

/-! ### Content extraction and the bounded enricher
(extraction HybridExtractor.ExtractSummary,
HybridMultiEngineSearcher.extractContentIntelligently) -/

/-- The truncation step of HybridExtractor.ExtractSummary on the character
list of an already-extracted content string: over the limit, cut at the
last sentence boundary of the prefix when that boundary lies past half the
limit, otherwise hard-cut and append an ellipsis. -/
def summaryTruncChars (content : List Char) (maxLength : Nat) : List Char :=
  if maxLength < content.length then
    let truncated := content.take maxLength
    let lastPeriod := lastIndexChars truncated ['.', ' ']
    if ((maxLength : Int) / 2) < lastPeriod then
      truncated.take (lastPeriod.toNat + 1)
    else
      truncated ++ ['.', '.', '.']
  else content

/-- HybridExtractor.ExtractSummary truncation on strings. -/
def summaryTruncate (content : String) (maxLength : Nat) : String :=
  (summaryTruncChars (strChars content) maxLength).asString

/-- The hybrid searcher: the registry plus the page-rendering capability of
its HybridExtractor.ExtractContent (opaque external collaborator). -/
structure HybridSearcher where
  engines : Registry
  extractContent : String → Except String String

/-- HybridExtractor.ExtractSummary: extract, then truncate; an extraction
error propagates. -/
def extractSummary (s : HybridSearcher) (url : String) (maxLength : Nat) :
    Except String String :=
  match s.extractContent url with
  | .ok content => .ok (summaryTruncate content maxLength)
  | .error e => .error e

/-- One slot of the bounded enricher: on success the owned Result gains
content and extractedAt (now models time.Now()), on failure it is left
untouched.  Each concurrent task owns one disjoint index, so the joined
final state is this per-item update. -/
def enrichOne (extract : String → Except String String) (now : Nat)
    (r : SearchResult) : SearchResult :=
  match extract r.url with
  | .ok c => { r with content := some c, extractedAt := some now }
  | .error _ => r

/-- The bounded content enricher after its join barrier: every item
attempted independently, never an error for the caller.  Covers both
multiEngineSearcher.extractContentConcurrently (extract = raw
ExtractContent) and
HybridMultiEngineSearcher.extractContentIntelligently (extract =
ExtractSummary with limit 3000); the semaphore size only bounds
concurrency, not the final state. -/
def enrichResults (extract : String → Except String String) (now : Nat)
    (results : List SearchResult) : List SearchResult :=
  results.map (enrichOne extract now)

/-- HybridMultiEngineSearcher.extractContentIntelligently: enrich through
ExtractSummary with the hardcoded limit 3000. -/
def extractContentIntelligently (s : HybridSearcher) (now : Nat)
    (results : List SearchResult) : List SearchResult :=
  enrichResults (fun u => extractSummary s u 3000) now results

/-! ### Single-source search with fallback
(HybridMultiEngineSearcher.Search) -/

/-- HybridMultiEngineSearcher.Search: select an engine, run it, fall back
on failure, then optionally enrich a non-empty result list. -/
def searchOp (s : HybridSearcher) (query : String) (opts : SearchOptions)
    (now : Nat) : Except String (List SearchResult) :=
  match selectEngine s.engines opts.engines with
  | none => .error "no search engine available"
  | some engine =>
    let attempt : Except String (List SearchResult) :=
      match engine.search query opts.maxResults with
      | .ok results => .ok results
      | .error _ =>
        match fallbackSearch s.engines query opts.maxResults engine.name with
        | .ok results => .ok results
        | .error e => .error ("all search engines failed: " ++ e)
    match attempt with
    | .error e => .error e
    | .ok results =>
      if opts.extractContent && !results.isEmpty then
        .ok (extractContentIntelligently s now results)
      else
        .ok results

/-! ### Multi-source dispatcher (HybridMultiEngineSearcher.DeepSearch) -/

/-- A placeholder engine for out-of-range indexing of the schedule; never
reached for a schedule that permutes the engine indices. -/
def noEngine : Engine :=
  { name := "", search := fun _ _ => .error "" }

/-- One DeepSearch task: an engine failure is logged and contributes
nothing (failure isolation), a success contributes its whole batch. -/
def engineBatch (query : String) (perEngine : Nat) (e : Engine) :
    List SearchResult :=
  match e.search query perEngine with
  | .ok results => results
  | .error _ => []

/-- Go resultsPerEngine := opts.MaxResults / len(engines), floored at 1. -/
def resultsPerEngine (maxResults count : Nat) : Nat :=
  if maxResults / count < 1 then 1 else maxResults / count

/-- The state of the shared allResults slice after the DeepSearch join
barrier: each task appends its whole batch under the mutex when it
completes, so the list is the concatenation of the batches in
task-completion order.  The schedule (a permutation of the engine indices)
is the explicit parameter. -/
def deepCollect (s : HybridSearcher) (query : String) (opts : SearchOptions)
    (order : List Nat) : List SearchResult :=
  let engines := getEngines s.engines opts.engines
  let perEngine := resultsPerEngine opts.maxResults engines.length
  (order.map (fun i => engineBatch query perEngine (engines.getD i noEngine))).flatten

/-- Go prefix truncation: results[:maxResults] when over the cap. -/
def truncateTo (maxResults : Nat) (l : List SearchResult) : List SearchResult :=
  if maxResults < l.length then l.take maxResults else l

/-- HybridMultiEngineSearcher.DeepSearch for one completion schedule:
resolve engines, fan out, join, fail on an empty concatenation, always
enrich, then prefix-truncate to maxResults. -/
def deepSearch (s : HybridSearcher) (query : String) (opts : SearchOptions)
    (order : List Nat) (now : Nat) : Except String (List SearchResult) :=
  let engines := getEngines s.engines opts.engines
  if engines.isEmpty then
    .error "no search engines available"
  else
    let allResults := deepCollect s query opts order
    if allResults.isEmpty then
      .error "no results from any search engine"
    else
      .ok (truncateTo opts.maxResults (extractContentIntelligently s now allResults))

/-! ### Link discovery and the deep reader (extraction DeepReader) -/

/-- extraction.LinkInfo (the Go field Type is named kind here). -/
structure LinkInfo where
  url : String
  text : String
  kind : String
deriving DecidableEq

/-- extraction.SubPageResult; the Go Error field is empty-or-message, so an
option. -/
structure SubPageResult where
  url : String
  title : String
  content : String
  linkText : String
  error : Option String
deriving DecidableEq

/-- extraction.DeepReadResult. -/
structure DeepReadResult where
  mainURL : String
  mainTitle : String
  mainContent : String
  subPages : List SubPageResult
  totalLinks : Nat
  crawledLinks : Nat
deriving DecidableEq

/-- extraction.DeepReader configuration (timeout in seconds, carried but
irrelevant to the pure model). -/
structure DeepReader where
  timeout : Nat
  maxLinks : Nat
  sameDomain : Bool
  contentLimit : Nat
  concurrency : Nat
deriving DecidableEq

/-- extraction.WithMaxLinks: only values in (0, 20] take effect; anything
else is silently ignored (Go takes an int, so the guard is over Int). -/
def WithMaxLinks (n : Int) : DeepReader → DeepReader :=
  fun d => if 0 < n ∧ n ≤ 20 then { d with maxLinks := n.toNat } else d

/-- extraction.WithSameDomain. -/
def WithSameDomain (same : Bool) : DeepReader → DeepReader :=
  fun d => { d with sameDomain := same }

/-- extraction.WithContentLimit: only positive values take effect. -/
def WithContentLimit (limit : Int) : DeepReader → DeepReader :=
  fun d => if 0 < limit then { d with contentLimit := limit.toNat } else d

/-- The defaults of extraction.NewDeepReader. -/
def defaultDeepReader : DeepReader :=
  { timeout := 60, maxLinks := 10, sameDomain := true, contentLimit := 2000,
    concurrency := 3 }

/-- extraction.NewDeepReader: fold the option functions over the default
configuration; construction never fails. -/
def NewDeepReader (opts : List (DeepReader → DeepReader)) : DeepReader :=
  opts.foldl (fun d opt => opt d) defaultDeepReader

/-- The whitespace class of Go strings.TrimSpace (ASCII fragment). -/
def isSpaceChar (c : Char) : Bool :=
  (9 ≤ c.toNat && c.toNat ≤ 13) || c.toNat == 32

/-- Go strings.TrimSpace. -/
def goTrimSpace (s : String) : String :=
  ((((strChars s).dropWhile isSpaceChar).reverse.dropWhile
    isSpaceChar).reverse).asString

/-- Go strings.Split(text, newline) on characters. -/
def splitOnNewline : List Char → List (List Char)
  | [] => [[]]
  | c :: rest =>
    let r := splitOnNewline rest
    if c == '\n' then [] :: r
    else (c :: r.headD []) :: r.tail

/-- Go strings.Join(lines, newline) on characters. -/
def joinWithNewline : List (List Char) → List Char
  | [] => []
  | [l] => l
  | l :: rest => l ++ '\n' :: joinWithNewline rest

/-- Go strings.ReplaceAll(s, triple newline, double newline): left-to-right
non-overlapping scan. -/
def replaceTriple : List Char → List Char
  | [] => []
  | c :: rest =>
    if isPrefixOfChars ['\n', '\n', '\n'] (c :: rest) then
      '\n' :: '\n' :: replaceTriple (rest.drop 2)
    else c :: replaceTriple rest
termination_by l => l.length
decreasing_by
  all_goals simp [List.length_drop]
  all_goals omega

/-- The line-accumulating loop of extraction.CleanText: trim each line,
keep non-empty lines, collapse runs of blank lines to one, and emit no
leading blank line. -/
def cleanLinesLoop (acc : List String) (lastWasEmpty : Bool) :
    List String → List String
  | [] => acc
  | line :: rest =>
    let t := goTrimSpace line
    if t ≠ "" then
      cleanLinesLoop (acc ++ [t]) false rest
    else if !lastWasEmpty && !acc.isEmpty then
      cleanLinesLoop (acc ++ [""]) true rest
    else
      cleanLinesLoop acc lastWasEmpty rest

/-- The final loop of extraction.CleanText, replacing triple newlines until
none remain; each replacement strictly shrinks the string, so the length of
the string is enough fuel. -/
def collapseTriple : Nat → String → String
  | 0, s => s
  | fuel + 1, s =>
    if goContains s "\n\n\n" then
      collapseTriple fuel (replaceTriple (strChars s)).asString
    else s

/-- extraction.CleanText. -/
def CleanText (text : String) : String :=
  let lines := (splitOnNewline (strChars text)).map List.asString
  let cleaned := cleanLinesLoop [] false lines
  let result := goTrimSpace (joinWithNewline (cleaned.map strChars)).asString
  collapseTriple (strLen result) result

/-- The host fragment of Go url.Parse: parsing fails on a control
character; otherwise the host of an absolute scheme://host/... URL is the
text between the scheme separator and the next delimiter, and a URL with
no scheme separator (a relative reference) has the empty host. -/
def urlParseHost (s : String) : Option String :=
  if (strChars s).any (fun c => c.toNat < 32) then
    none
  else
    match goIndex s "://" with
    | .ofNat i =>
      some (((strChars s).drop (i + 3)).takeWhile
        (fun c => c ≠ '/' && c ≠ '?' && c ≠ '#')).asString
    | .negSucc _ => some ""

/-- The fixed URL-substring blocklist of DeepReader.filterLinks. -/
def excludePatterns : List String :=
  ["login", "signin", "sign-in", "signup", "sign-up", "register",
   "logout", "log-out", "subscribe", "unsubscribe",
   "privacy", "terms", "legal", "cookie",
   "contact", "about", "help", "support", "faq",
   "sitemap", "rss", "feed", "xml",
   "facebook.com", "twitter.com", "linkedin.com", "instagram.com",
   "youtube.com", "github.com", "medium.com"]

/-- The fixed file-extension blocklist of DeepReader.filterLinks. -/
def excludeExtensions : List String :=
  [".pdf", ".zip", ".doc", ".docx", ".xls", ".xlsx",
   ".ppt", ".pptx", ".mp3", ".mp4", ".avi", ".mov",
   ".jpg", ".jpeg", ".png", ".gif", ".svg", ".webp"]

/-- The low-information anchor texts dropped by DeepReader.filterLinks. -/
def genericTexts : List String :=
  ["click here", "read more", "more", "learn more", "here", "link"]

/-- The per-link exclusion test of the DeepReader.filterLinks loop, in
source order: invalid or scheme-excluded URLs, already-seen URLs,
same-page anchors, foreign hosts under the same-domain policy, blocklisted
URL substrings, blocklisted extensions, and short or generic anchor
texts. -/
def linkExcluded (d : DeepReader) (baseURL baseHost : String)
    (seen : List String) (link : LinkInfo) : Bool :=
  let linkURL := link.url
  let linkLower := goToLower linkURL
  let textLower := goToLower link.text
  if linkURL == "" || linkURL == "#" ||
      goHasPrefix linkURL "javascript:" || goHasPrefix linkURL "mailto:" ||
      goHasPrefix linkURL "tel:" then
    true
  else if seen.contains linkURL then
    true
  else if goContains linkURL "#" &&
      (let idx := goIndex linkURL "#"
       let continueURL := if 0 < idx then goTake linkURL idx.toNat else linkURL
       continueURL == baseURL || continueURL == "") then
    true
  else if d.sameDomain &&
      (match urlParseHost linkURL with
       | none => true
       | some h => h != baseHost) then
    true
  else if excludePatterns.any (fun pat => goContains linkLower pat) then
    true
  else if excludeExtensions.any (fun ext => goHasSuffix linkLower ext) then
    true
  else if strLen link.text < 3 || genericTexts.contains textLower then
    true
  else
    false

/-- The accumulating loop of DeepReader.filterLinks: drop excluded links,
record every kept URL as seen. -/
def filterLinksLoop (d : DeepReader) (baseURL baseHost : String) :
    List LinkInfo → List String → List LinkInfo
  | [], _ => []
  | link :: rest, seen =>
    if linkExcluded d baseURL baseHost seen link then
      filterLinksLoop d baseURL baseHost rest seen
    else
      link :: filterLinksLoop d baseURL baseHost rest (link.url :: seen)

/-- DeepReader.filterLinks: on an unparsable base URL just cap the raw
list; otherwise run the exclusion loop, sort the survivors by descending
anchor-text length (the Go sort is unstable, but no property below depends
on the relative order of equal lengths), and cap at maxLinks. -/
def filterLinks (d : DeepReader) (baseURL : String) (links : List LinkInfo) :
    List LinkInfo :=
  match urlParseHost baseURL with
  | none => links.take (min d.maxLinks links.length)
  | some baseHost =>
    let filtered := filterLinksLoop d baseURL baseHost links []
    let sorted := filtered.insertionSort
      (fun a b => strLen b.text ≤ strLen a.text)
    if d.maxLinks < sorted.length then sorted.take d.maxLinks else sorted

/-- One DeepReader.crawlSubPages task (slot idx of the results slice): a
failed extraction stores the error next to the link, a successful one
stores the content and a title taken from a leading markdown heading. -/
def crawlOne (extract : String → Except String String) (link : LinkInfo) :
    SubPageResult :=
  match extract link.url with
  | .error e =>
    { url := link.url, title := "", content := "", linkText := link.text,
      error := some e }
  | .ok content =>
    let title :=
      if goHasPrefix content "# " then
        (((strChars content).takeWhile (fun c => c ≠ '\n')).drop 2).asString
      else ""
    { url := link.url, title := title, content := content,
      linkText := link.text, error := none }

/-- DeepReader.crawlSubPages after its join barrier: one slot per link,
then the filter keeping slots with a non-empty URL (every slot is written
with the URL of its link, so the filter only matters for links with empty
URLs). -/
def crawlSubPages (extract : String → Except String String)
    (links : List LinkInfo) : List SubPageResult :=
  (links.map (crawlOne extract)).filter (fun r => r.url ≠ "")

/-- The outcome of rendering the seed page: title, main text and the raw
outbound links (the untyped JSON round-trip of the source is modelled as
this typed record). -/
structure RenderedPage where
  title : String
  content : String
  links : List LinkInfo

/-- DeepReader.DeepRead given the seed-page rendering outcome and the
page-rendering capability used for sub-pages (each sub-page goes through
ExtractSummary with the reader contentLimit): a seed rendering failure is
the one fatal path; main content is cleaned and hard-truncated; links are
filtered and crawled; totalLinks counts the raw links and crawledLinks the
attempted sub-pages. -/
def DeepRead (d : DeepReader) (targetURL : String)
    (render : Except String RenderedPage)
    (extractContent : String → Except String String) :
    Except String DeepReadResult :=
  match render with
  | .error e => .error ("failed to read main page " ++ targetURL ++ ": " ++ e)
  | .ok page =>
    let cleaned := CleanText page.content
    let mainContent :=
      if d.contentLimit < strLen cleaned then
        goTake cleaned d.contentLimit ++ "..."
      else cleaned
    let allLinks := page.links
    let filteredLinks := filterLinks d targetURL allLinks
    let base : DeepReadResult :=
      { mainURL := targetURL, mainTitle := page.title,
        mainContent := mainContent, subPages := [],
        totalLinks := allLinks.length, crawledLinks := 0 }
    if filteredLinks.isEmpty then
      .ok base
    else
      let subPages := crawlSubPages
        (fun u =>
          match extractContent u with
          | .ok c => .ok (summaryTruncate c d.contentLimit)
          | .error e => .error e)
        filteredLinks
      .ok { base with subPages := subPages, crawledLinks := subPages.length }

/-! ### Helper lemmas -/

/-- A successful registry lookup returns a stored (key, engine) pair. -/
theorem lookupEngine_mem {reg : Registry} {n : String} {e : Engine}
    (h : lookupEngine reg n = some e) : (n, e) ∈ reg := by
  induction reg with
  | nil => simp [lookupEngine, List.lookup] at h
  | cons p rest ih =>
    obtain ⟨k, v⟩ := p
    rw [lookupEngine, List.lookup] at h
    cases hk : n == k with
    | true =>
      simp only [hk] at h
      cases h
      exact (beq_iff_eq.mp hk) ▸ List.mem_cons_self _ _
    | false =>
      simp only [hk] at h
      exact List.mem_cons_of_mem _ (ih h)

/-- When every registry value carries its own key as name, keyed lookup is
injective on instances. -/
theorem lookup_inj_of_name_keyed {reg : Registry}
    (hk : ∀ p ∈ reg, (p.2).name = p.1) :
    ∀ n₁ n₂ e, lookupEngine reg n₁ = some e → lookupEngine reg n₂ = some e →
      n₁ = n₂ := by
  intro n₁ n₂ e h₁ h₂
  have e₁ : e.name = n₁ := hk _ (lookupEngine_mem h₁)
  have e₂ : e.name = n₂ := hk _ (lookupEngine_mem h₂)
  rw [← e₁, ← e₂]

/-- The getEngines loop is lookup-driven filtering that keeps the name
order. -/
theorem getEnginesLoop_eq_filterMap (reg : Registry) (names : List String) :
    getEnginesLoop reg names = names.filterMap (lookupEngine reg) := by
  induction names with
  | nil => rfl
  | cons n rest ih =>
    rw [getEnginesLoop, List.filterMap_cons]
    cases h : lookupEngine reg n <;> simp [h, ih]

/-- The selection walk finds nothing exactly when no walked name is
registered. -/
theorem findEngineIn_eq_none_iff (reg : Registry) (names : List String) :
    findEngineIn reg names = none ↔ ∀ n ∈ names, lookupEngine reg n = none := by
  induction names with
  | nil => simp [findEngineIn]
  | cons n rest ih =>
    rw [findEngineIn]
    cases h : lookupEngine reg n with
    | some e =>
      simp only [List.mem_cons]
      constructor
      · intro hc; cases hc
      · intro hall
        have := hall n (Or.inl rfl)
        rw [h] at this
        cases this
    | none =>
      simp only [List.mem_cons, ih]
      constructor
      · intro hall m hm
        cases hm with
        | inl hm => exact hm ▸ h
        | inr hm => exact hall m hm
      · intro hall m hm
        exact hall m (Or.inr hm)

/-- The selection walk returns the engine of the first registered name. -/
theorem findEngineIn_first_match {reg : Registry} {pre : List String}
    {n : String} {e : Engine} (post : List String)
    (hpre : ∀ m ∈ pre, lookupEngine reg m = none)
    (hn : lookupEngine reg n = some e) :
    findEngineIn reg (pre ++ n :: post) = some e := by
  induction pre with
  | nil => rw [List.nil_append, findEngineIn, hn]
  | cons m rest ih =>
    have hm := hpre m (List.mem_cons_self _ _)
    rw [List.cons_append, findEngineIn, hm]
    exact ih (fun x hx => hpre x (List.mem_cons_of_mem _ hx))

/-- A successful fallback walk names a registered engine other than the
failed one whose search succeeded with exactly the returned results. -/
theorem fallbackLoop_ok {reg : Registry} {query : String} {maxResults : Nat}
    {failed : String} {names : List String} {rs : List SearchResult}
    (h : fallbackLoop reg query maxResults failed names = .ok rs) :
    ∃ n, n ∈ names ∧ n ≠ failed ∧
      ∃ e, lookupEngine reg n = some e ∧ e.search query maxResults = .ok rs := by
  induction names with
  | nil => cases h
  | cons n rest ih =>
    rw [fallbackLoop] at h
    by_cases hf : (n == failed) = true
    · rw [if_pos hf] at h
      obtain ⟨m, hm, hrest⟩ := ih h
      exact ⟨m, List.mem_cons_of_mem _ hm, hrest⟩
    · rw [if_neg hf] at h
      have hne : n ≠ failed := fun hc => hf (beq_iff_eq.mpr hc)
      cases hl : lookupEngine reg n with
      | none =>
        simp only [hl] at h
        obtain ⟨m, hm, hrest⟩ := ih h
        exact ⟨m, List.mem_cons_of_mem _ hm, hrest⟩
      | some e =>
        simp only [hl] at h
        cases hs : e.search query maxResults with
        | ok out =>
          simp only [hs] at h
          cases h
          exact ⟨n, List.mem_cons_self _ _, hne, e, hl, hs⟩
        | error msg =>
          simp only [hs] at h
          obtain ⟨m, hm, hrest⟩ := ih h
          exact ⟨m, List.mem_cons_of_mem _ hm, hrest⟩

/-- When every walked engine other than the failed one fails, the fallback
walk reports the terminal failure. -/
theorem fallbackLoop_error {reg : Registry} {query : String}
    {maxResults : Nat} {failed : String} {names : List String}
    (h : ∀ n ∈ names, n ≠ failed → ∀ e, lookupEngine reg n = some e →
      (e.search query maxResults).isOk = false) :
    fallbackLoop reg query maxResults failed names =
      .error "all fallback engines failed" := by
  induction names with
  | nil => rfl
  | cons n rest ih =>
    have hrest := fun m hm => h m (List.mem_cons_of_mem _ hm)
    rw [fallbackLoop]
    by_cases hf : (n == failed) = true
    · rw [if_pos hf]
      exact ih hrest
    · rw [if_neg hf]
      have hne : n ≠ failed := fun hc => hf (beq_iff_eq.mpr hc)
      cases hl : lookupEngine reg n with
      | none =>
        simp only [hl]
        exact ih hrest
      | some e =>
        have hfail := h n (List.mem_cons_self _ _) hne e hl
        simp only [hl]
        cases hs : e.search query maxResults with
        | ok out => rw [hs] at hfail; cases hfail
        | error msg =>
          simp only [hs]
          exact ih hrest

/-- Enrichment never changes the provider tag of a result. -/
theorem enrichOne_engine (extract : String → Except String String)
    (now : Nat) (r : SearchResult) :
    (enrichOne extract now r).engine = r.engine := by
  rw [enrichOne]
  cases extract r.url <;> rfl

/-- Enrichment never changes the number of results. -/
theorem enrichResults_length (extract : String → Except String String)
    (now : Nat) (results : List SearchResult) :
    (enrichResults extract now results).length = results.length :=
  List.length_map _ _

/-- The link-filter loop only drops links. -/
theorem filterLinksLoop_length_le (d : DeepReader) (baseURL baseHost : String)
    (links : List LinkInfo) (seen : List String) :
    (filterLinksLoop d baseURL baseHost links seen).length ≤ links.length := by
  induction links generalizing seen with
  | nil => simp [filterLinksLoop]
  | cons l rest ih =>
    rw [filterLinksLoop]
    split
    · exact (ih seen).trans (Nat.le_succ _)
    · simpa using ih (l.url :: seen)

/-- The link filter never returns more links than it was given. -/
theorem filterLinks_length_le (d : DeepReader) (baseURL : String)
    (links : List LinkInfo) :
    (filterLinks d baseURL links).length ≤ links.length := by
  rw [filterLinks]
  split
  · simp [List.length_take]
  · rename_i bh heq
    have hloop := filterLinksLoop_length_le d baseURL bh links []
    have hsort : (List.insertionSort
        (fun a b => strLen b.text ≤ strLen a.text)
        (filterLinksLoop d baseURL bh links [])).length
        = (filterLinksLoop d baseURL bh links []).length :=
      List.length_insertionSort _ _
    dsimp only
    split
    · rw [List.length_take, hsort]
      omega
    · exact le_trans (le_of_eq hsort) hloop

/-- The sub-page crawl produces at most one record per link. -/
theorem crawlSubPages_length_le (extract : String → Except String String)
    (links : List LinkInfo) :
    (crawlSubPages extract links).length ≤ links.length :=
  le_trans (List.length_filter_le _ _) (by simp [List.length_map])

/-- A character-list prefix is no longer than the list. -/
theorem isPrefixOfChars_length_le {p l : List Char}
    (h : isPrefixOfChars p l = true) : p.length ≤ l.length := by
  induction p generalizing l with
  | nil => simp
  | cons a as ih =>
    cases l with
    | nil => cases h
    | cons b bs =>
      rw [isPrefixOfChars, Bool.and_eq_true] at h
      simpa using ih h.2

/-- A non-negative LastIndex result is an occurrence: the pattern fits in
the list starting there. -/
theorem lastIndexChars_occurrence {l pat : List Char} {i : Nat}
    (h : lastIndexChars l pat = (i : Int)) : i + pat.length ≤ l.length := by
  rw [lastIndexChars] at h
  cases hm : (((List.range (l.length + 1)).filter
      (fun i => isPrefixOfChars pat (l.drop i))).getLast?) with
  | none => rw [hm] at h; cases h
  | some j =>
    rw [hm] at h
    have hj : j = i := by
      have : (j : Int) = (i : Int) := h
      exact_mod_cast this
    subst hj
    obtain ⟨hrange, hpred⟩ :=
      List.mem_filter.mp (List.mem_of_getLast?_eq_some hm)
    have hle : pat.length ≤ (l.drop j).length := isPrefixOfChars_length_le hpred
    rw [List.length_drop] at hle
    have hjr : j < l.length + 1 := List.mem_range.mp hrange
    omega

/-- The truncation step of ExtractSummary adds at most the three ellipsis
characters past the limit. -/
theorem summaryTruncChars_length_le (content : List Char) (maxLength : Nat) :
    (summaryTruncChars content maxLength).length ≤ maxLength + 3 := by
  rw [summaryTruncChars]
  split
  · rename_i hgt
    have htl : (content.take maxLength).length = maxLength := by
      rw [List.length_take]; omega
    dsimp only
    split
    · rename_i hlp
      cases hli : lastIndexChars (content.take maxLength) ['.', ' '] with
      | ofNat i =>
        have hocc :=
          @lastIndexChars_occurrence (content.take maxLength) ['.', ' '] i hli
        rw [htl] at hocc
        simp only [List.length_cons, List.length_singleton] at hocc
        simp only [List.length_take, Int.toNat_ofNat, htl]
        omega
      | negSucc k =>
        rw [hli] at hlp
        have h0 : (0 : Int) ≤ (maxLength : Int) / 2 := by positivity
        have hneg : Int.negSucc k < 0 := Int.negSucc_lt_zero k
        omega
    · rw [List.length_append, htl]
      simp
  · rename_i hle
    omega

/-- String-level ExtractSummary truncation bound. -/
theorem summaryTruncate_length_le (content : String) (maxLength : Nat) :
    strLen (summaryTruncate content maxLength) ≤ maxLength + 3 :=
  summaryTruncChars_length_le (strChars content) maxLength

/-! ### Concrete fixtures used by the closed theorems below -/

/-- A result stub of a first provider. -/
def rAlpha : SearchResult :=
  { title := "A", url := "ua", snippet := "", content := none,
    engine := "alpha", extractedAt := none }

/-- A result stub of a second provider. -/
def rBeta : SearchResult :=
  { title := "B", url := "ub", snippet := "", content := none,
    engine := "beta", extractedAt := none }

/-- A provider that always succeeds with one result. -/
def engAlpha : Engine :=
  { name := "alpha", search := fun _ _ => .ok [rAlpha] }

/-- A second provider that always succeeds with one result. -/
def engBeta : Engine :=
  { name := "beta", search := fun _ _ => .ok [rBeta] }

/-- A two-provider searcher whose renderer always fails (enrichment leaves
every result untouched). -/
def twoEngineSearcher : HybridSearcher :=
  { engines := [("alpha", engAlpha), ("beta", engBeta)],
    extractContent := fun _ => .error "no renderer" }

/-- Options naming both providers of the two-provider searcher. -/
def twoEngineOpts : SearchOptions :=
  { maxResults := 10, extractContent := true, engines := ["alpha", "beta"],
    timeout := 0 }

/-- The same options with a result budget of one. -/
def oneResultOpts : SearchOptions :=
  { maxResults := 1, extractContent := true, engines := ["alpha", "beta"],
    timeout := 0 }

/-- A stub duckduckgo provider that always fails. -/
def duckFailEngine : Engine :=
  { name := "duckduckgo", search := fun _ _ => .error "down" }

/-- The result returned by the stub bing provider, tagged with its source
name. -/
def rBing : SearchResult :=
  { title := "F", url := "uf", snippet := "", content := none,
    engine := "bing", extractedAt := none }

/-- A stub bing provider that always succeeds. -/
def bingOkEngine : Engine :=
  { name := "bing", search := fun _ _ => .ok [rBing] }

/-- A searcher whose first-priority provider fails and whose second
succeeds. -/
def fallbackSearcher : HybridSearcher :=
  { engines := [("duckduckgo", duckFailEngine), ("bing", bingOkEngine)],
    extractContent := fun _ => .error "no renderer" }

/-- Options with no preferred sources and no enrichment. -/
def plainOpts : SearchOptions :=
  { maxResults := 5, extractContent := false, engines := [], timeout := 0 }

/-- A searcher whose only provider fails. -/
def allFailSearcher : HybridSearcher :=
  { engines := [("duckduckgo", duckFailEngine)],
    extractContent := fun _ => .error "no renderer" }

/-- An inert engine stub under the key duckduckgo. -/
def duckStub : Engine :=
  { name := "duckduckgo", search := fun _ _ => .error "external" }

/-- An inert engine stub under the key bing. -/
def bingStub : Engine :=
  { name := "bing", search := fun _ _ => .error "external" }

/-- An inert engine stub under the key brave. -/
def braveStub : Engine :=
  { name := "brave", search := fun _ _ => .error "external" }

/-- A registry with the three engine keys built by NewHybridSearcher. -/
def stdReg : Registry :=
  [("duckduckgo", duckStub), ("bing", bingStub), ("brave", braveStub)]

/-- The first spec-test link, taken literally: a relative login URL. -/
def loginRelLink : LinkInfo :=
  { url := "/login", text := "Sign In", kind := "link" }

/-- The second spec-test link, taken literally: a relative article URL. -/
def articleRelLink : LinkInfo :=
  { url := "/a1", text := "Interesting Long Article Title", kind := "link" }

/-- The first spec-test link as an absolute URL on the seed domain. -/
def loginAbsLink : LinkInfo :=
  { url := "https://example.com/login", text := "Sign In", kind := "link" }

/-- The second spec-test link as an absolute URL on the seed domain. -/
def articleAbsLink : LinkInfo :=
  { url := "https://example.com/a1", text := "Interesting Long Article Title",
    kind := "link" }

/-! ### The claims -/

/-- Claim C9: constructing a DeepReader with the maxLinks option set to
100 (outside the accepted range (0, 20]) yields a reader identical to the
default one, with maxLinks 10; the out-of-range value is silently ignored
and construction cannot fail (NewDeepReader is total). -/
theorem withMaxLinks_out_of_range_clamped :
    NewDeepReader [WithMaxLinks 100] = defaultDeepReader ∧
    (NewDeepReader [WithMaxLinks 100]).maxLinks = 10 := by
  constructor <;> rfl

/-- Claim C8 counterexample: with the two links of the spec taken
literally (relative URLs) and the default same-domain-only policy, a seed
page on example.com makes the filter drop both links, because a relative
URL parses with an empty host; the filter does not return exactly the
second link. -/
theorem linkFilter_relative_urls_cex :
    filterLinks defaultDeepReader "https://example.com/"
      [loginRelLink, articleRelLink] = [] ∧
    ([] : List LinkInfo) ≠ [articleRelLink] := by
  constructor
  · rfl
  · decide

/-- Claim C8 amended: with the two spec links read as absolute URLs on the
seed domain example.com, the filter drops the login link through the URL
blocklist and keeps exactly the descriptive article link. -/
theorem linkFilter_example_amended :
    filterLinks defaultDeepReader "https://example.com/"
      [loginAbsLink, articleAbsLink] = [articleAbsLink] := by
  rfl

/-- Claim C3 counterexample: with the three standard registry keys and the
non-empty preferred list [google] containing no registered name,
selectEngine does not return none: it falls back to the fixed priority
list and returns the duckduckgo entry, so Single-Source Search does not
fail with NoProviderAvailable there. -/
theorem selectEngine_unmatched_preferred_cex :
    selectEngine stdReg ["google"] = some duckStub ∧
    selectEngine stdReg ["google"] ≠ none := by
  constructor
  · rfl
  · intro h
    exact Option.noConfusion
      ((rfl : selectEngine stdReg ["google"] = some duckStub).symm.trans h)

/-- Claim C3 amended: selectEngine returns the provider of the first name
of the preferred list that is registered; when no preferred name is
registered (in particular for an empty preferred list) it falls back to
walking the fixed priority list; it returns none — making Single-Source
Search fail with NoProviderAvailable — exactly when no preferred name and
no priority-list name is registered. -/
theorem selectEngine_selection (reg : Registry) (preferred : List String) :
    (∀ pre n post e, preferred = pre ++ n :: post →
        (∀ m ∈ pre, lookupEngine reg m = none) →
        lookupEngine reg n = some e →
        selectEngine reg preferred = some e)
    ∧ ((∀ m ∈ preferred, lookupEngine reg m = none) →
        selectEngine reg preferred = findEngineIn reg hybridPriority)
    ∧ (selectEngine reg preferred = none ↔
        ((∀ m ∈ preferred, lookupEngine reg m = none) ∧
          ∀ m ∈ hybridPriority, lookupEngine reg m = none)) := by
  refine ⟨?_, ?_, ?_⟩
  · intro pre n post e hsplit hpre hn
    subst hsplit
    rw [selectEngine, findEngineIn_first_match post hpre hn]
  · intro hall
    rw [selectEngine, (findEngineIn_eq_none_iff reg preferred).mpr hall]
  · rw [selectEngine]
    cases hf : findEngineIn reg preferred with
    | some e =>
      constructor
      · intro h; cases h
      · intro ⟨hpref, _⟩
        rw [(findEngineIn_eq_none_iff reg preferred).mpr hpref] at hf
        cases hf
    | none =>
      rw [findEngineIn_eq_none_iff]
      constructor
      · intro h
        exact ⟨(findEngineIn_eq_none_iff reg preferred).mp hf, h⟩
      · intro ⟨_, h⟩
        exact h

/-- Claim C3 amended, witness: with the standard registry keys, the
preferred list [google, bing] selects the bing entry, the first registered
preferred name. -/
theorem selectEngine_selection_witness :
    selectEngine stdReg ["google", "bing"] = some bingStub := by
  refine (selectEngine_selection stdReg ["google", "bing"]).1
    ["google"] "bing" [] bingStub rfl ?_ rfl
  intro m hm
  rw [List.mem_singleton.mp hm]
  rfl

/-- Claim C4 counterexample: resolveSources applied to the repeated name
list [bing, bing] over the standard registry returns the bing instance
twice — a duplicated provider instance. -/
theorem resolveSources_duplicate_cex :
    getEngines stdReg ["bing", "bing"] = [bingStub, bingStub] ∧
    ¬ (getEngines stdReg ["bing", "bing"]).Nodup := by
  refine ⟨rfl, fun h => ?_⟩
  have h2 : ([bingStub, bingStub] : List Engine).Nodup := h
  exact (List.nodup_cons.mp h2).1 (List.mem_singleton.mpr rfl)

/-- Claim C4 amended: resolveSources maps the effective name list — the
fixed default priority order when the input is empty, the input itself
otherwise — through registry lookup, keeping exactly the registered names
in order, with every occurrence of a repeated registered name yielding its
instance again; when the input names are pairwise distinct (and distinct
registered names hold distinct instances, as in the constructed registry,
whose values carry their key as name) the output has no duplicate
instances. -/
theorem resolveSources_order_nodup (reg : Registry) (names : List String) :
    getEngines reg names =
      (if names.isEmpty then hybridPriority else names).filterMap
        (lookupEngine reg)
    ∧ ((∀ n₁ n₂ e, lookupEngine reg n₁ = some e →
          lookupEngine reg n₂ = some e → n₁ = n₂) →
        names.Nodup → (getEngines reg names).Nodup) := by
  constructor
  · rw [getEngines, getEnginesLoop_eq_filterMap]
  · intro hinj hnodup
    rw [getEngines, getEnginesLoop_eq_filterMap]
    refine List.Nodup.filterMap ?_ ?_
    · intro a a' b hb hb'
      exact hinj a a' b hb hb'
    · split
      · decide
      · exact hnodup

/-- Claim C4 amended, witness: the distinct names [bing, brave] over the
standard registry resolve in order and without duplicate instances. -/
theorem resolveSources_order_nodup_witness :
    getEngines stdReg ["bing", "brave"] =
      (if (["bing", "brave"] : List String).isEmpty then hybridPriority
        else ["bing", "brave"]).filterMap (lookupEngine stdReg)
    ∧ (getEngines stdReg ["bing", "brave"]).Nodup := by
  obtain ⟨h1, h2⟩ := resolveSources_order_nodup stdReg ["bing", "brave"]
  refine ⟨h1, h2 ?_ (by decide)⟩
  refine lookup_inj_of_name_keyed ?_
  intro p hp
  simp only [stdReg, List.mem_cons, List.not_mem_nil, or_false] at hp
  rcases hp with rfl | rfl | rfl <;> rfl

/-- Claim C2: for a batch of N results whose content and extractedAt are
absent, of which exactly K fail their per-item extraction, the bounded
enricher — a total function, so it never raises an error — leaves N
results of which exactly N-K carry both content and extractedAt and
exactly K keep both fields absent. -/
theorem enricher_partial_failure (extract : String → Except String String)
    (now : Nat) (results : List SearchResult)
    (habs : ∀ r ∈ results, r.content = none ∧ r.extractedAt = none) :
    (enrichResults extract now results).length = results.length
    ∧ (enrichResults extract now results).countP
        (fun r => r.content.isSome && r.extractedAt.isSome)
      = results.length - results.countP (fun r => !(extract r.url).isOk)
    ∧ (enrichResults extract now results).countP
        (fun r => r.content.isNone && r.extractedAt.isNone)
      = results.countP (fun r => !(extract r.url).isOk) := by
  induction results with
  | nil => simp [enrichResults]
  | cons r rs ih =>
    obtain ⟨hc, he⟩ := habs r (List.mem_cons_self _ _)
    obtain ⟨ih1, ih2, ih3⟩ := ih (fun x hx => habs x (List.mem_cons_of_mem _ hx))
    have hK : rs.countP (fun r => !(extract r.url).isOk) ≤ rs.length :=
      List.countP_le_length _
    simp only [enrichResults, List.map_cons, List.countP_cons,
      List.length_cons] at ih1 ih2 ih3 ⊢
    cases hx : extract r.url with
    | ok c =>
      have hok : (if (!(Except.ok c : Except String String).isOk) = true
          then 1 else 0) = 0 := rfl
      simp only [enrichOne, hx, Bool.not_true, Option.isSome_some,
        Option.isNone_some, Bool.and_self, Bool.and_false, Bool.false_and,
        Bool.false_eq_true, reduceIte, true_and, hok, ih1, ih2, ih3]
      refine ⟨?_, ?_⟩ <;> first | omega | trivial
    | error msg =>
      have herr : (if (!(Except.error msg : Except String String).isOk) = true
          then 1 else 0) = 1 := rfl
      simp only [enrichOne, hx, Bool.not_false, hc, he,
        Option.isSome_none, Option.isNone_none, Bool.and_self,
        Bool.false_and, Bool.false_eq_true, reduceIte, true_and,
        herr, ih1, ih2, ih3]
      refine ⟨?_, ?_⟩ <;> first | omega | trivial

/-- A renderer that fails exactly on the url bad. -/
def oneBadExtract : String → Except String String :=
  fun u => if u == "bad" then .error "broken page" else .ok "extracted"

/-- A three-item batch whose middle item has the failing url. -/
def threeResults : List SearchResult :=
  [{ title := "1", url := "ok1", snippet := "", content := none,
     engine := "alpha", extractedAt := none },
   { title := "2", url := "bad", snippet := "", content := none,
     engine := "alpha", extractedAt := none },
   { title := "3", url := "ok2", snippet := "", content := none,
     engine := "beta", extractedAt := none }]

/-- Claim C2 witness: on a concrete three-item batch with one failing
extraction, the enricher keeps three items, fills two and leaves one
untouched. -/
theorem enricher_partial_failure_witness :
    (enrichResults oneBadExtract 7 threeResults).length = threeResults.length
    ∧ (enrichResults oneBadExtract 7 threeResults).countP
        (fun r => r.content.isSome && r.extractedAt.isSome)
      = threeResults.length -
          threeResults.countP (fun r => !(oneBadExtract r.url).isOk)
    ∧ (enrichResults oneBadExtract 7 threeResults).countP
        (fun r => r.content.isNone && r.extractedAt.isNone)
      = threeResults.countP (fun r => !(oneBadExtract r.url).isOk) := by
  refine enricher_partial_failure oneBadExtract 7 threeResults ?_
  intro r hr
  fin_cases hr <;> exact ⟨rfl, rfl⟩

/-- Claim C1 counterexample: with two providers that both succeed, the
schedule in which the second task completes first is a permutation of the
engine indices, yet DeepSearch returns the batches in completion order
[rBeta, rAlpha], not the provider-list order [rAlpha, rBeta]: the output
depends on which concurrent task completes first. -/
theorem deepSearch_not_list_order_cex :
    List.Perm [1, 0]
      (List.range (getEngines twoEngineSearcher.engines
        twoEngineOpts.engines).length)
    ∧ deepSearch twoEngineSearcher "q" twoEngineOpts
        (List.range (getEngines twoEngineSearcher.engines
          twoEngineOpts.engines).length) 0 = .ok [rAlpha, rBeta]
    ∧ deepSearch twoEngineSearcher "q" twoEngineOpts [1, 0] 0 =
        .ok [rBeta, rAlpha]
    ∧ ([rBeta, rAlpha] : List SearchResult) ≠ [rAlpha, rBeta] :=
  ⟨by decide, rfl, rfl, by decide⟩

/-- Claim C1 amended: for every completion schedule that permutes the
engine indices, the shared result list after the join is the concatenation
of the successful providers result batches in task-completion order — a
permutation of the provider-list-order concatenation, whose ordering (but
not membership) depends on which task completes first — and every
successful DeepSearch returns exactly that collection, enriched and then
prefix-truncated to maxResults. -/
theorem deepSearch_completion_order (s : HybridSearcher) (query : String)
    (opts : SearchOptions) (now : Nat) (order : List Nat)
    (hperm : order.Perm
      (List.range (getEngines s.engines opts.engines).length)) :
    (deepCollect s query opts order).Perm
      (deepCollect s query opts
        (List.range (getEngines s.engines opts.engines).length))
    ∧ ∀ out, deepSearch s query opts order now = .ok out →
        out = truncateTo opts.maxResults
          (extractContentIntelligently s now (deepCollect s query opts order)) := by
  constructor
  · rw [deepCollect, deepCollect]
    exact (hperm.map _).flatten
  · intro out h
    rw [deepSearch] at h
    split at h
    · cases h
    · dsimp only at h
      split at h
      · cases h
      · exact (Except.ok.inj h).symm

/-- Claim C1 amended, witness: for the concrete two-provider searcher and
the swapped completion schedule, the collected results are a permutation
of the provider-list-order collection. -/
theorem deepSearch_completion_order_witness :
    (deepCollect twoEngineSearcher "q" twoEngineOpts [1, 0]).Perm
      (deepCollect twoEngineSearcher "q" twoEngineOpts
        (List.range (getEngines twoEngineSearcher.engines
          twoEngineOpts.engines).length)) :=
  (deepSearch_completion_order twoEngineSearcher "q" twoEngineOpts 0 [1, 0]
    (by decide)).1

/-- Claim C6: every successful DeepSearch returns exactly
min(maxResults, total collected results) results: enrichment preserves the
count and the final step is a prefix cut. -/
theorem deepSearch_length_min (s : HybridSearcher) (query : String)
    (opts : SearchOptions) (order : List Nat) (now : Nat)
    (out : List SearchResult)
    (h : deepSearch s query opts order now = .ok out) :
    out.length = min opts.maxResults (deepCollect s query opts order).length := by
  rw [deepSearch] at h
  split at h
  · cases h
  · dsimp only at h
    split at h
    · rename_i hne
      cases h
    · rename_i hne
      have hlen : (extractContentIntelligently s now
          (deepCollect s query opts order)).length
          = (deepCollect s query opts order).length :=
        enrichResults_length _ _ _
      obtain rfl := (Except.ok.inj h).symm
      rw [truncateTo]
      split
      · rename_i hlt
        rw [List.length_take]
        omega
      · rename_i hge
        omega

/-- Claim C6 witness: the two-provider searcher with a budget of one
returns exactly one of the two collected results. -/
theorem deepSearch_length_min_witness :
    ([rAlpha] : List SearchResult).length =
      min oneResultOpts.maxResults
        (deepCollect twoEngineSearcher "q" oneResultOpts [0, 1]).length :=
  deepSearch_length_min twoEngineSearcher "q" oneResultOpts [0, 1] 0 [rAlpha] rfl

/-- Claim C5: when every registered provider is tagged with its registry
key (it names itself and its results by that key, as the concrete engines
of the source do) and the initially selected provider fails, Single-Source
Search walks the fixed priority list excluding the failed provider: a
successful call returns results all carrying the source name of the
succeeding fallback — never the failed name — and when every remaining
registered provider fails the call fails with the AllProvidersFailed
error. -/
theorem search_fallback_tagging (s : HybridSearcher) (query : String)
    (opts : SearchOptions) (now : Nat) (engine : Engine)
    (htag : ∀ p ∈ s.engines, (p.2).name = p.1 ∧
        ∀ (q : String) (k : Nat) (rs : List SearchResult),
          (p.2).search q k = .ok rs → ∀ r ∈ rs, r.engine = p.1)
    (hsel : selectEngine s.engines opts.engines = some engine)
    (hfail : (engine.search query opts.maxResults).isOk = false) :
    (∀ out, searchOp s query opts now = .ok out →
        ∃ n, n ≠ engine.name ∧ n ∈ hybridPriority ∧
          ∀ r ∈ out, r.engine = n)
    ∧ ((∀ n ∈ hybridPriority, n ≠ engine.name →
          ∀ e, lookupEngine s.engines n = some e →
            (e.search query opts.maxResults).isOk = false) →
        searchOp s query opts now =
          .error "all search engines failed: all fallback engines failed") := by
  have hfailcase : ∃ msg, engine.search query opts.maxResults = .error msg := by
    cases hs : engine.search query opts.maxResults with
    | ok rs => rw [hs] at hfail; cases hfail
    | error msg => exact ⟨msg, rfl⟩
  obtain ⟨msg, hmsg⟩ := hfailcase
  constructor
  · intro out h
    rw [searchOp] at h
    simp only [hsel, hmsg] at h
    cases hfb : fallbackSearch s.engines query opts.maxResults engine.name with
    | error e =>
      rw [hfb] at h
      dsimp only at h
      cases h
    | ok rs =>
      rw [hfb] at h
      dsimp only at h
      obtain ⟨n, hmem, hne, e, hlook, hsearch⟩ := fallbackLoop_ok hfb
      have htagged := (htag (n, e) (lookupEngine_mem hlook)).2
        query opts.maxResults rs hsearch
      refine ⟨n, hne, hmem, ?_⟩
      split at h
      · obtain rfl := (Except.ok.inj h).symm
        intro r hr
        obtain ⟨r0, hr0, rfl⟩ := List.mem_map.mp hr
        rw [enrichOne_engine]
        exact htagged r0 hr0
      · obtain rfl := (Except.ok.inj h).symm
        exact htagged
  · intro hall
    have hfb : fallbackSearch s.engines query opts.maxResults engine.name =
        .error "all fallback engines failed" :=
      fallbackLoop_error (fun n hn hne e hl =>
        hall n hn hne e hl)
    rw [searchOp]
    simp only [hsel, hmsg, hfb]
    rfl

/-- Claim C5 witness: with a failing duckduckgo provider and a succeeding
bing provider, and every only remaining provider of a one-provider
registry failing, the fallback walk surfaces the terminal
AllProvidersFailed error. -/
theorem search_fallback_tagging_witness :
    searchOp allFailSearcher "q" plainOpts 0 =
      .error "all search engines failed: all fallback engines failed" := by
  refine (search_fallback_tagging allFailSearcher "q" plainOpts 0
    duckFailEngine ?_ rfl rfl).2 ?_
  · intro p hp
    simp only [allFailSearcher, List.mem_singleton] at hp
    subst hp
    refine ⟨rfl, ?_⟩
    intro q k rs h
    exact Except.noConfusion h
  · intro n hn hne e hl
    simp only [hybridPriority, List.mem_cons, List.not_mem_nil, or_false] at hn
    rcases hn with rfl | rfl | rfl
    · exact absurd rfl hne
    · exact Option.noConfusion
        (show (none : Option Engine) = some e from hl)
    · exact Option.noConfusion
        (show (none : Option Engine) = some e from hl)

/-- Claim C7: every successfully produced DeepReadResult satisfies
crawledLinks = len(subPages) and crawledLinks ≤ totalLinks, including the
zero-links case in which subPages is empty and crawledLinks is zero. -/
theorem deepRead_link_invariant (d : DeepReader) (targetURL : String)
    (render : Except String RenderedPage)
    (extractContent : String → Except String String) (res : DeepReadResult)
    (h : DeepRead d targetURL render extractContent = .ok res) :
    res.crawledLinks = res.subPages.length ∧
    res.crawledLinks ≤ res.totalLinks := by
  cases render with
  | error e => cases h
  | ok page =>
    rw [DeepRead] at h
    dsimp only at h
    split at h
    · obtain rfl := (Except.ok.inj h).symm
      exact ⟨rfl, Nat.zero_le _⟩
    · obtain rfl := (Except.ok.inj h).symm
      refine ⟨rfl, ?_⟩
      exact le_trans
        (crawlSubPages_length_le _ (filterLinks d targetURL page.links))
        (filterLinks_length_le d targetURL page.links)

/-- The rendered seed page of the zero-links witness. -/
def zeroLinkPage : RenderedPage :=
  { title := "T", content := "hi", links := [] }

/-- The DeepReadResult of the zero-links witness. -/
def zeroLinkResult : DeepReadResult :=
  { mainURL := "https://example.com/", mainTitle := "T", mainContent := "hi",
    subPages := [], totalLinks := 0, crawledLinks := 0 }

/-- Claim C7 witness: the zero-links deep read produces the empty subPages
list with crawledLinks zero, satisfying the invariant. -/
theorem deepRead_link_invariant_witness :
    zeroLinkResult.crawledLinks = zeroLinkResult.subPages.length ∧
    zeroLinkResult.crawledLinks ≤ zeroLinkResult.totalLinks :=
  deepRead_link_invariant defaultDeepReader "https://example.com/"
    (.ok zeroLinkPage) (fun _ => .error "down") zeroLinkResult rfl

/-- Claim C10: for every maxLength > 0 the truncation of ExtractSummary
returns at most maxLength + 3 characters (the prefix cut plus the
three-character ellipsis), and consequently every content written by the
hybrid enricher — which runs ExtractSummary with the hardcoded limit
3000 — on a batch of unenriched results holds at most 3003 characters. -/
theorem extractSummary_length_bound (maxLength : Nat) (hpos : 0 < maxLength) :
    (∀ content : String,
        strLen (summaryTruncate content maxLength) ≤ maxLength + 3)
    ∧ (∀ (s : HybridSearcher) (now : Nat) (results : List SearchResult),
        (∀ r ∈ results, r.content = none) →
        ∀ r' ∈ extractContentIntelligently s now results, ∀ c : String,
          r'.content = some c → strLen c ≤ 3003) := by
  constructor
  · intro content
    exact summaryTruncate_length_le content maxLength
  · intro s now results habs r' hr' c hc
    simp only [extractContentIntelligently, enrichResults] at hr'
    obtain ⟨r, hr, rfl⟩ := List.mem_map.mp hr'
    rw [enrichOne] at hc
    cases hx : extractSummary s r.url 3000 with
    | error e =>
      rw [hx] at hc
      dsimp only at hc
      rw [habs r hr] at hc
      cases hc
    | ok c0 =>
      rw [hx] at hc
      dsimp only at hc
      obtain rfl := (Option.some.inj hc).symm
      rw [extractSummary] at hx
      cases hw : s.extractContent r.url with
      | error e => rw [hw] at hx; cases hx
      | ok w =>
        rw [hw] at hx
        obtain rfl := (Except.ok.inj hx).symm
        exact summaryTruncate_length_le w 3000

/-- Claim C10 witness: a ten-character content truncated at limit five
stays within eight characters. -/
theorem extractSummary_length_bound_witness :
    strLen (summaryTruncate "abcdefghij" 5) ≤ 5 + 3 :=
  (extractSummary_length_bound 5 (by decide)).1 "abcdefghij"
